import Mathlib

/-!
Shallow embedding of the match-room scoring engine (src/main.go).

Conventions of the embedding:
* Go `uint8` / `uint16` values are modelled as `Nat`; wherever the Go code
  performs unsigned subtraction that can wrap (the segment-difference
  computations on `uint8`), the wraparound is made explicit with
  `(a % 256 + 256 - b % 256) % 256`.  The Go line `if diff < 0 { diff = -diff }`
  is dead code on an unsigned value and therefore has no counterpart.
* Go `int64` timestamps and `int16` scores are modelled as `Int`.  For
  `uint16` inputs the `int16` score arithmetic provably cannot overflow
  (the largest attainable total is below 2^15), so plain `Int` addition is
  a faithful model.
* `uint16(config.MinWaitTime)` (a Go `int` truncated to 16 bits) is
  modelled as `(config.minWaitTime % 65536).toNat`.
* Go maps are modelled as association lists (`lastMatchedUsers`), member
  sets as `List String` (`blacklist`), and the result map of the batch
  matcher as a function `String → Option Entity` updated in iteration
  order, so that later writes shadow earlier ones exactly as Go map
  assignment does.
* The reject-reason strings of the Go code are modelled as the tagged
  type `RejectReason` carrying the same data that the strings interpolate.
* `rand.Intn n` is modelled by an explicit selection parameter
  `pick : Nat → Nat`; the Go code draws `rand.Intn n < n`, which theorems
  mirror with the hypothesis `pick n < n` where the drawn index matters.
* `time.Now().Unix()` is modelled by an explicit `currentTime : Int`
  parameter threaded to the call sites that Go reaches with the captured
  timestamp.
* The `panic` on a batch length mismatch is modelled as `Except.error`
  carrying the panic message.
-/

/-- Activity level `low` (Go `ActivityLow`, value 0 of the uint8 enum). -/
def ActivityLow : Nat := 0

/-- Activity level `medium` (Go `ActivityMedium`, value 1). -/
def ActivityMedium : Nat := 1

/-- Activity level `high` (Go `ActivityHigh`, value 2). -/
def ActivityHigh : Nat := 2

/-- Participant record (Go `Entity`, src/main.go lines 19-29). -/
structure Entity where
  id : String
  lastMatchedUsers : List (String × Int)
  blacklist : List String
  micCount : Nat
  audienceCount : Nat
  waitSeconds : Nat
  matchHistory : Nat
  activityLevel : Nat
deriving DecidableEq

/-- Scoring configuration (Go `MatchConfig`, lines 54-58). -/
structure MatchConfig where
  recentMatchCooldown : Int
  maxWaitTime : Int
  minWaitTime : Int
deriving DecidableEq

/-- Default configuration (Go `DefaultMatchConfig`, lines 60-64). -/
def DefaultMatchConfig : MatchConfig :=
  { recentMatchCooldown := 600, maxWaitTime := 300, minWaitTime := 20 }

/-- Tagged model of the reject-reason strings produced by the engine. -/
inductive RejectReason where
  | blacklist : RejectReason
  | cooldown : Int → RejectReason
  | segmentGap : Nat → Nat → RejectReason
  | segmentMismatch : RejectReason
deriving DecidableEq

/-- Candidate plus score (Go `MatchResult`, lines 32-36). -/
structure MatchResult where
  room : Entity
  score : Int
deriving DecidableEq

/-- Per-pair evaluation record (Go `MatchDetail`, lines 39-51).  The Go
zero value of each numeric field is 0, of `Rejected` is `false`, and of
`RejectReason` is the empty string, modelled as `none`. -/
structure MatchDetail where
  entity : Entity
  score : Int
  waitScore : Int
  segmentScore : Int
  audienceScore : Int
  historyScore : Int
  activityScore : Int
  currentSegment : Nat
  candidateSegment : Nat
  rejected : Bool
  rejectReason : Option RejectReason
deriving DecidableEq

/-- Precomputed segment table (Go `micSegmentMap`, line 67). -/
def micSegmentMap : List Nat := [0, 1, 1, 1, 2, 2, 2, 3, 3, 3, 3, 3, 3, 3, 3, 3]

/-- Segment classifier (Go `getMicSegment`, lines 70-78). -/
def getMicSegment (micCount : Nat) : Nat :=
  if micCount = 0 then 0
  else if micCount < 16 then micSegmentMap.getD micCount 0
  else 3

/-- Wait-time score (Go `scoreWaitTime`, lines 81-89).  `minWait` is the
Go conversion `uint16(config.MinWaitTime)`. -/
def scoreWaitTime (seconds : Nat) (config : MatchConfig) : Int :=
  let minWait := (config.minWaitTime % 65536).toNat
  if seconds ≤ minWait then 0
  else if seconds ≤ 60 then ((seconds - minWait) / 10 : Nat)
  else 4 + (((seconds - 60) / 10 * 2 : Nat) : Int)

/-- Segment-consistency score (Go `scoreMicSegment`, lines 92-109).  The
Go `diff := currentSeg - candidateSeg` is uint8 subtraction, written here
with its wraparound explicit; the subsequent `if diff < 0` of the source
can never fire on a uint8 and so has no counterpart. -/
def scoreMicSegment (currentSeg candidateSeg : Nat) (waitTime : Nat) : Int :=
  if currentSeg = candidateSeg then 10
  else
    let diff := (currentSeg % 256 + 256 - candidateSeg % 256) % 256
    if diff = 1 ∧ 60 ≤ waitTime then 3
    else if 60 ≤ waitTime then 0
    else -999

/-- Audience-difference table (Go `audienceDiffScores`, line 112). -/
def audienceDiffScores : List Int := [5, 4, 3, 2, 1, 0]

/-- Audience-difference score (Go `scoreAudienceDiff`, lines 114-122). -/
def scoreAudienceDiff (diff : Int) : Int :=
  let d := if diff < 0 then -diff else diff
  if d < 6 then audienceDiffScores.getD d.toNat 0 else 0

/-- History score (Go `scoreMatchHistory`, lines 125-133). -/
def scoreMatchHistory (history : Nat) : Int :=
  if 10 ≤ history then 4
  else if 5 ≤ history then 2
  else 0

/-- Activity table (Go `activityScores`, line 136). -/
def activityScores : List Int := [0, 2, 3]

/-- Activity score (Go `scoreActivity`, lines 138-143). -/
def scoreActivity (level : Nat) : Int :=
  if level < 3 then activityScores.getD level 0 else 0

/-- Segment-gap stage of the eligibility filter (Go `quickReject`,
lines 159-170).  As in `scoreMicSegment`, the uint8 subtraction is made
explicit and the dead `if diff < 0` branch has no counterpart. -/
def quickRejectSegment (current candidate : Entity) : Option RejectReason :=
  if candidate.waitSeconds < 60 then
    let currentSeg := getMicSegment current.micCount
    let candidateSeg := getMicSegment candidate.micCount
    let diff := (currentSeg % 256 + 256 - candidateSeg % 256) % 256
    if 1 < diff then some (RejectReason.segmentGap currentSeg candidateSeg) else none
  else none

/-- Eligibility filter (Go `quickReject`, lines 146-173): blacklist,
then cooldown, then the pre-emptive segment-gap check.  `none` means the
pair survives the filter. -/
def quickReject (current candidate : Entity) (currentUserID : String) (config : MatchConfig) (currentTime : Int) : Option RejectReason :=
  if candidate.blacklist.contains currentUserID then some RejectReason.blacklist
  else
    match candidate.lastMatchedUsers.lookup currentUserID with
    | some lastTime =>
      if currentTime - lastTime < config.recentMatchCooldown then
        some (RejectReason.cooldown (currentTime - lastTime))
      else quickRejectSegment current candidate
    | none => quickRejectSegment current candidate

/-- Detailed scorer (Go `scoreMatchDetailed`, lines 176-209).  On the
quick-reject path only the fields set before rejection are populated; on
the segment-mismatch path the already-computed wait and segment scores
are kept, exactly as in the source. -/
def scoreMatchDetailed (current candidate : Entity) (currentUserID : String) (config : MatchConfig) (currentTime : Int) (currentSeg : Nat) : MatchDetail :=
  let candidateSeg := getMicSegment candidate.micCount
  match quickReject current candidate currentUserID config currentTime with
  | some reason =>
    { entity := candidate, score := -999, waitScore := 0, segmentScore := 0,
      audienceScore := 0, historyScore := 0, activityScore := 0,
      currentSegment := currentSeg, candidateSegment := candidateSeg,
      rejected := true, rejectReason := some reason }
  | none =>
    let waitScore := scoreWaitTime candidate.waitSeconds config
    let segmentScore := scoreMicSegment currentSeg candidateSeg candidate.waitSeconds
    if segmentScore < 0 then
      { entity := candidate, score := -999, waitScore := waitScore, segmentScore := segmentScore,
        audienceScore := 0, historyScore := 0, activityScore := 0,
        currentSegment := currentSeg, candidateSegment := candidateSeg,
        rejected := true, rejectReason := some RejectReason.segmentMismatch }
    else
      let audienceScore := scoreAudienceDiff ((current.audienceCount : Int) - (candidate.audienceCount : Int))
      let historyScore := scoreMatchHistory candidate.matchHistory
      let activityScore := scoreActivity candidate.activityLevel
      { entity := candidate,
        score := waitScore + segmentScore + audienceScore + historyScore + activityScore,
        waitScore := waitScore, segmentScore := segmentScore, audienceScore := audienceScore,
        historyScore := historyScore, activityScore := activityScore,
        currentSegment := currentSeg, candidateSegment := candidateSeg,
        rejected := false, rejectReason := none }

/-- Score-only scorer (Go `scoreMatch`, lines 212-215). -/
def scoreMatch (current candidate : Entity) (currentUserID : String) (config : MatchConfig) (currentTime : Int) (currentSeg : Nat) : Int :=
  (scoreMatchDetailed current candidate currentUserID config currentTime currentSeg).score

/-- First pool pass of `matchEntity` (Go lines 269-279): running maximum
of all scores, rejected candidates included, starting from -1000. -/
def matchEntityMax (current : Entity) (pool : List Entity) (currentUserID : String) (config : MatchConfig) (currentTime : Int) (currentSeg : Nat) : Int :=
  pool.foldl
    (fun m c =>
      if m < scoreMatch current c currentUserID config currentTime currentSeg then
        scoreMatch current c currentUserID config currentTime currentSeg
      else m)
    (-1000)

/-- Second pool pass of `matchEntity` (Go lines 286-295): collect every
candidate whose score equals the maximum. -/
def matchEntityResults (current : Entity) (pool : List Entity) (currentUserID : String) (config : MatchConfig) (currentTime : Int) (currentSeg : Nat) (maxScore : Int) : List MatchResult :=
  pool.filterMap (fun c =>
    if scoreMatch current c currentUserID config currentTime currentSeg = maxScore then
      some { room := c, score := scoreMatch current c currentUserID config currentTime currentSeg }
    else none)

/-- Score-only matcher (Go `matchEntity`, lines 262-305).  `pick` stands
for the `rand.Intn` draw, `currentTime` for the captured
`time.Now().Unix()`. -/
def matchEntity (pick : Nat → Nat) (current : Entity) (pool : List Entity) (currentUserID : String) (config : MatchConfig) (currentTime : Int) : Option Entity :=
  if pool.length = 0 then none
  else
    let currentSeg := getMicSegment current.micCount
    let maxScore := matchEntityMax current pool currentUserID config currentTime currentSeg
    if maxScore < 0 then none
    else
      let results := matchEntityResults current pool currentUserID config currentTime currentSeg maxScore
      if results.length = 0 then none
      else (results.get? (pick results.length)).map MatchResult.room

/-- Detail list built by `matchEntityDetailed` (Go lines 229-237). -/
def matchEntityDetails (current : Entity) (pool : List Entity) (currentUserID : String) (config : MatchConfig) (currentTime : Int) (currentSeg : Nat) : List MatchDetail :=
  pool.map (fun c => scoreMatchDetailed current c currentUserID config currentTime currentSeg)

/-- Running maximum of `matchEntityDetailed` (Go lines 225-237): only
non-rejected details update the maximum, starting from -1000. -/
def matchDetailedMax (details : List MatchDetail) : Int :=
  details.foldl (fun m d => if d.rejected = false ∧ m < d.score then d.score else m) (-1000)

/-- Tie collection of `matchEntityDetailed` (Go lines 245-250). -/
def matchDetailedCandidates (details : List MatchDetail) (maxScore : Int) : List Entity :=
  details.filterMap (fun d => if d.rejected = false ∧ d.score = maxScore then some d.entity else none)

/-- Detailed matcher (Go `matchEntityDetailed`, lines 218-259). -/
def matchEntityDetailed (pick : Nat → Nat) (current : Entity) (pool : List Entity) (currentUserID : String) (config : MatchConfig) (currentTime : Int) : Option Entity × List MatchDetail :=
  if pool.length = 0 then (none, [])
  else
    let currentSeg := getMicSegment current.micCount
    let details := matchEntityDetails current pool currentUserID config currentTime currentSeg
    let maxScore := matchDetailedMax details
    if maxScore < 0 then (none, details)
    else
      let candidates := matchDetailedCandidates details maxScore
      if candidates.length = 0 then (none, details)
      else (candidates.get? (pick candidates.length), details)

/-- Loop of `batchMatchEntities` (Go lines 316-326): nil seekers and
positions past the identifier list are skipped, successful matches are
written into the result map in iteration order. -/
def batchGo (pick : Nat → Nat) (pool : List Entity) (config : MatchConfig) (currentTime : Int) : List (Option Entity) → List String → (String → Option Entity) → String → Option Entity
  | [], _, acc => acc
  | _ :: _, [], acc => acc
  | none :: rooms, _ :: userIDs, acc => batchGo pick pool config currentTime rooms userIDs acc
  | some room :: rooms, userID :: userIDs, acc =>
    match matchEntity pick room pool userID config currentTime with
    | some matched =>
      batchGo pick pool config currentTime rooms userIDs
        (fun key => if key = room.id then some matched else acc key)
    | none => batchGo pick pool config currentTime rooms userIDs acc

/-- Batch matcher (Go `batchMatchEntities`, lines 308-329).  The Go
`panic` on a length mismatch is modelled as `Except.error` with the panic
message. -/
def batchMatchEntities (pick : Nat → Nat) (rooms : List (Option Entity)) (pool : List Entity) (userIDs : List String) (config : MatchConfig) (currentTime : Int) : Except String (String → Option Entity) :=
  if rooms.length ≠ userIDs.length then Except.error "rooms and userIDs length mismatch"
  else Except.ok (batchGo pick pool config currentTime rooms userIDs (fun _ => none))

/-! ### Basic lemmas about the component scorers -/

theorem scoreWaitTime_nonneg (s : Nat) (config : MatchConfig) : 0 ≤ scoreWaitTime s config := by
  simp only [scoreWaitTime]
  split
  · exact le_refl 0
  · split
    · exact Int.natCast_nonneg _
    · have := Int.natCast_nonneg ((s - 60) / 10 * 2)
      omega

theorem audienceDiffScores_getD_nonneg (i : Nat) : 0 ≤ audienceDiffScores.getD i 0 := by
  match i with
  | 0 => decide
  | 1 => decide
  | 2 => decide
  | 3 => decide
  | 4 => decide
  | 5 => decide
  | n + 6 => exact le_refl 0

theorem scoreAudienceDiff_nonneg (d : Int) : 0 ≤ scoreAudienceDiff d := by
  simp only [scoreAudienceDiff]
  split <;> split <;>
    first
    | exact audienceDiffScores_getD_nonneg _
    | exact le_refl 0

theorem scoreMatchHistory_nonneg (h : Nat) : 0 ≤ scoreMatchHistory h := by
  simp only [scoreMatchHistory]
  split
  · decide
  · split <;> decide

theorem activityScores_getD_nonneg (i : Nat) : 0 ≤ activityScores.getD i 0 := by
  match i with
  | 0 => decide
  | 1 => decide
  | 2 => decide
  | n + 3 => exact le_refl 0

theorem scoreActivity_nonneg (level : Nat) : 0 ≤ scoreActivity level := by
  simp only [scoreActivity]
  split
  · exact activityScores_getD_nonneg _
  · exact le_refl 0

theorem getMicSegment_le_three (c : Nat) : getMicSegment c ≤ 3 := by
  by_cases h : c < 16
  · have key : ∀ a : Fin 16, getMicSegment a.val ≤ 3 := by decide
    exact key ⟨c, h⟩
  · simp only [getMicSegment]
    rw [if_neg (by omega), if_neg h]

theorem getMicSegment_saturate (c : Nat) (hc : 15 ≤ c) : getMicSegment c = 3 := by
  by_cases h : c < 16
  · have h15 : c = 15 := by omega
    subst h15
    decide
  · simp only [getMicSegment]
    rw [if_neg (by omega), if_neg h]

/-! ### Equation lemmas for the detailed scorer -/

theorem scoreMatchDetailed_eq_reject (current candidate : Entity) (uid : String)
    (config : MatchConfig) (t : Int) (seg : Nat) (r : RejectReason)
    (hq : quickReject current candidate uid config t = some r) :
    scoreMatchDetailed current candidate uid config t seg =
      { entity := candidate, score := -999, waitScore := 0, segmentScore := 0,
        audienceScore := 0, historyScore := 0, activityScore := 0,
        currentSegment := seg, candidateSegment := getMicSegment candidate.micCount,
        rejected := true, rejectReason := some r } := by
  simp only [scoreMatchDetailed, hq]

theorem scoreMatchDetailed_eq_segMismatch (current candidate : Entity) (uid : String)
    (config : MatchConfig) (t : Int) (seg : Nat)
    (hq : quickReject current candidate uid config t = none)
    (hseg : scoreMicSegment seg (getMicSegment candidate.micCount) candidate.waitSeconds < 0) :
    scoreMatchDetailed current candidate uid config t seg =
      { entity := candidate, score := -999,
        waitScore := scoreWaitTime candidate.waitSeconds config,
        segmentScore := scoreMicSegment seg (getMicSegment candidate.micCount) candidate.waitSeconds,
        audienceScore := 0, historyScore := 0, activityScore := 0,
        currentSegment := seg, candidateSegment := getMicSegment candidate.micCount,
        rejected := true, rejectReason := some RejectReason.segmentMismatch } := by
  simp only [scoreMatchDetailed, hq]
  rw [if_pos hseg]

theorem scoreMatchDetailed_eq_eligible (current candidate : Entity) (uid : String)
    (config : MatchConfig) (t : Int) (seg : Nat)
    (hq : quickReject current candidate uid config t = none)
    (hseg : ¬ scoreMicSegment seg (getMicSegment candidate.micCount) candidate.waitSeconds < 0) :
    scoreMatchDetailed current candidate uid config t seg =
      { entity := candidate,
        score := scoreWaitTime candidate.waitSeconds config
               + scoreMicSegment seg (getMicSegment candidate.micCount) candidate.waitSeconds
               + scoreAudienceDiff ((current.audienceCount : Int) - (candidate.audienceCount : Int))
               + scoreMatchHistory candidate.matchHistory
               + scoreActivity candidate.activityLevel,
        waitScore := scoreWaitTime candidate.waitSeconds config,
        segmentScore := scoreMicSegment seg (getMicSegment candidate.micCount) candidate.waitSeconds,
        audienceScore := scoreAudienceDiff ((current.audienceCount : Int) - (candidate.audienceCount : Int)),
        historyScore := scoreMatchHistory candidate.matchHistory,
        activityScore := scoreActivity candidate.activityLevel,
        currentSegment := seg, candidateSegment := getMicSegment candidate.micCount,
        rejected := false, rejectReason := none } := by
  simp only [scoreMatchDetailed, hq]
  rw [if_neg hseg]

theorem scoreMatchDetailed_entity (current candidate : Entity) (uid : String)
    (config : MatchConfig) (t : Int) (seg : Nat) :
    (scoreMatchDetailed current candidate uid config t seg).entity = candidate := by
  rcases hq : quickReject current candidate uid config t with _ | r
  · by_cases hseg : scoreMicSegment seg (getMicSegment candidate.micCount) candidate.waitSeconds < 0
    · rw [scoreMatchDetailed_eq_segMismatch current candidate uid config t seg hq hseg]
    · rw [scoreMatchDetailed_eq_eligible current candidate uid config t seg hq hseg]
  · rw [scoreMatchDetailed_eq_reject current candidate uid config t seg r hq]

theorem scoreMatchDetailed_rejected_score (current candidate : Entity) (uid : String)
    (config : MatchConfig) (t : Int) (seg : Nat)
    (h : (scoreMatchDetailed current candidate uid config t seg).rejected = true) :
    (scoreMatchDetailed current candidate uid config t seg).score = -999 := by
  rcases hq : quickReject current candidate uid config t with _ | r
  · by_cases hseg : scoreMicSegment seg (getMicSegment candidate.micCount) candidate.waitSeconds < 0
    · rw [scoreMatchDetailed_eq_segMismatch current candidate uid config t seg hq hseg]
    · rw [scoreMatchDetailed_eq_eligible current candidate uid config t seg hq hseg] at h
      cases h
  · rw [scoreMatchDetailed_eq_reject current candidate uid config t seg r hq]

theorem scoreMatchDetailed_eligible_sum (current candidate : Entity) (uid : String)
    (config : MatchConfig) (t : Int) (seg : Nat)
    (h : (scoreMatchDetailed current candidate uid config t seg).rejected = false) :
    (scoreMatchDetailed current candidate uid config t seg).score =
      (scoreMatchDetailed current candidate uid config t seg).waitScore +
      (scoreMatchDetailed current candidate uid config t seg).segmentScore +
      (scoreMatchDetailed current candidate uid config t seg).audienceScore +
      (scoreMatchDetailed current candidate uid config t seg).historyScore +
      (scoreMatchDetailed current candidate uid config t seg).activityScore := by
  rcases hq : quickReject current candidate uid config t with _ | r
  · by_cases hseg : scoreMicSegment seg (getMicSegment candidate.micCount) candidate.waitSeconds < 0
    · rw [scoreMatchDetailed_eq_segMismatch current candidate uid config t seg hq hseg] at h
      cases h
    · rw [scoreMatchDetailed_eq_eligible current candidate uid config t seg hq hseg]
  · rw [scoreMatchDetailed_eq_reject current candidate uid config t seg r hq] at h
    cases h

theorem scoreMatchDetailed_eligible_nonneg (current candidate : Entity) (uid : String)
    (config : MatchConfig) (t : Int) (seg : Nat)
    (h : (scoreMatchDetailed current candidate uid config t seg).rejected = false) :
    0 ≤ (scoreMatchDetailed current candidate uid config t seg).score := by
  rcases hq : quickReject current candidate uid config t with _ | r
  · by_cases hseg : scoreMicSegment seg (getMicSegment candidate.micCount) candidate.waitSeconds < 0
    · rw [scoreMatchDetailed_eq_segMismatch current candidate uid config t seg hq hseg] at h
      cases h
    · rw [scoreMatchDetailed_eq_eligible current candidate uid config t seg hq hseg]
      have h1 := scoreWaitTime_nonneg candidate.waitSeconds config
      have h2 := scoreAudienceDiff_nonneg ((current.audienceCount : Int) - (candidate.audienceCount : Int))
      have h3 := scoreMatchHistory_nonneg candidate.matchHistory
      have h4 := scoreActivity_nonneg candidate.activityLevel
      simp only []
      omega
  · rw [scoreMatchDetailed_eq_reject current candidate uid config t seg r hq] at h
    cases h

theorem quickRejectSegment_cases (cur cand : Entity) :
    quickRejectSegment cur cand = none ∨
    ∃ a b, quickRejectSegment cur cand = some (RejectReason.segmentGap a b) := by
  simp only [quickRejectSegment]
  split
  · split
    · exact Or.inr ⟨_, _, rfl⟩
    · exact Or.inl rfl
  · exact Or.inl rfl

/-- Concrete seeker used by the scenario theorems: occupancy 3 (tier 1),
audience 50, wait 80 s, empty blacklist, no match history. -/
def seekerA : Entity :=
  { id := "current", lastMatchedUsers := [], blacklist := [], micCount := 3,
    audienceCount := 50, waitSeconds := 80, matchHistory := 0, activityLevel := ActivityLow }

/-- Concrete candidate of Scenario A: occupancy 4, audience 50, wait 80 s,
history 12, activity high, empty blacklist, no cooldown entry. -/
def candB : Entity :=
  { id := "cand", lastMatchedUsers := [], blacklist := [], micCount := 4,
    audienceCount := 50, waitSeconds := 80, matchHistory := 12, activityLevel := ActivityHigh }

/-- C1 (code_bug evaluation): the claim says a tier gap of exactly 1 with
candidate wait at least 60 s scores 3.  The Go `diff` is computed on uint8,
so for seeker tier 1 against candidate tier 2 the difference underflows to
255 and the scorer returns 0 instead of 3; the mirrored pair, where the
subtraction does not wrap, returns 3.  The other two branches of the claim
hold: tier gap at least 2 with wait at least 60 s scores 0, and any gap
with wait below 60 s returns the sentinel -999. -/
theorem scoreMicSegment_gap_one_divergence :
    scoreMicSegment 1 2 60 = 0 ∧ scoreMicSegment 2 1 60 = 3 ∧
    scoreMicSegment 3 1 60 = 0 ∧ scoreMicSegment 1 3 60 = 0 ∧
    scoreMicSegment 1 2 59 = -999 ∧ scoreMicSegment 2 1 59 = -999 ∧
    scoreMicSegment 0 3 59 = -999 := by decide

/-- C2 (code_bug evaluation): the claim says the pre-emptive segment-gap
rejection never fires for a tier gap of exactly 1.  With seeker tier 1
(occupancy 1) and candidate tier 2 (occupancy 4) at candidate wait 10 s,
the uint8 underflow makes the Go gap check see 255 > 1 and `quickReject`
rejects the pair with the segment-gap reason. -/
theorem quickReject_gap_one_rejects :
    quickReject { seekerA with micCount := 1 } { candB with waitSeconds := 10 }
      "u" DefaultMatchConfig 0 = some (RejectReason.segmentGap 1 2) := by decide

/-- C6: the segment classifier maps occupancy 0 to tier 0, returns tier 3
for every occupancy of at least 15, and is monotone nondecreasing. -/
theorem getMicSegment_monotone_saturates :
    getMicSegment 0 = 0 ∧
    (∀ c : Nat, 15 ≤ c → getMicSegment c = 3) ∧
    (∀ c₁ c₂ : Nat, c₁ ≤ c₂ → getMicSegment c₁ ≤ getMicSegment c₂) := by
  refine ⟨by decide, getMicSegment_saturate, ?_⟩
  intro c₁ c₂ h
  by_cases h2 : c₂ < 16
  · have h1 : c₁ < 16 := by omega
    have key : ∀ a : Fin 16, ∀ b : Fin 16,
        a.val ≤ b.val → getMicSegment a.val ≤ getMicSegment b.val := by decide
    exact key ⟨c₁, h1⟩ ⟨c₂, h2⟩ h
  · rw [getMicSegment_saturate c₂ (by omega)]
    exact getMicSegment_le_three c₁

/-- C6 witness: the saturation and monotonicity parts evaluated at
concrete occupancies. -/
theorem getMicSegment_monotone_saturates_witness :
    getMicSegment 0 = 0 ∧ getMicSegment 20 = 3 ∧ getMicSegment 2 ≤ getMicSegment 9 :=
  ⟨getMicSegment_monotone_saturates.1,
   getMicSegment_monotone_saturates.2.1 20 (by decide),
   getMicSegment_monotone_saturates.2.2 2 9 (by decide)⟩

/-- C7: every evaluated pair's detail record carries the sentinel total
-999 when rejected, and otherwise a total equal to the sum of the five
component scores; that sum is nonnegative, hence strictly above the
sentinel, so the sentinel is below every attainable eligible total. -/
theorem matchDetail_sentinel_invariant (current candidate : Entity) (uid : String)
    (config : MatchConfig) (t : Int) (seg : Nat) :
    ((scoreMatchDetailed current candidate uid config t seg).rejected = true →
      (scoreMatchDetailed current candidate uid config t seg).score = -999) ∧
    ((scoreMatchDetailed current candidate uid config t seg).rejected = false →
      (scoreMatchDetailed current candidate uid config t seg).score =
        (scoreMatchDetailed current candidate uid config t seg).waitScore +
        (scoreMatchDetailed current candidate uid config t seg).segmentScore +
        (scoreMatchDetailed current candidate uid config t seg).audienceScore +
        (scoreMatchDetailed current candidate uid config t seg).historyScore +
        (scoreMatchDetailed current candidate uid config t seg).activityScore ∧
      -999 < (scoreMatchDetailed current candidate uid config t seg).score) :=
  ⟨scoreMatchDetailed_rejected_score current candidate uid config t seg,
   fun h => ⟨scoreMatchDetailed_eligible_sum current candidate uid config t seg h,
     lt_of_lt_of_le (by norm_num)
       (scoreMatchDetailed_eligible_nonneg current candidate uid config t seg h)⟩⟩

/-- C7 witness: the invariant applied to a concrete eligible pair and to a
concrete blacklisted (rejected) pair. -/
theorem matchDetail_sentinel_invariant_witness :
    -999 < (scoreMatchDetailed seekerA candB "u" DefaultMatchConfig 0 1).score ∧
    (scoreMatchDetailed seekerA { candB with blacklist := ["u"] } "u" DefaultMatchConfig 0 1).score = -999 :=
  ⟨((matchDetail_sentinel_invariant seekerA candB "u" DefaultMatchConfig 0 1).2 (by decide)).2,
   (matchDetail_sentinel_invariant seekerA { candB with blacklist := ["u"] } "u" DefaultMatchConfig 0 1).1
     (by decide)⟩

/-- C4: once the blacklist stage is passed, the filter rejects with the
cooldown reason exactly when the candidate has a last-match entry for the
seeker whose elapsed time is strictly below the configured cooldown; in
particular an elapsed time equal to the cooldown is not rejected, and a
candidate without an entry is never rejected for cooldown. -/
theorem quickReject_cooldown_boundary (current candidate : Entity) (uid : String)
    (config : MatchConfig) (t : Int) :
    (candidate.blacklist.contains uid = false →
      ((∃ lastTime, candidate.lastMatchedUsers.lookup uid = some lastTime ∧
          t - lastTime < config.recentMatchCooldown) ↔
        (∃ e, quickReject current candidate uid config t = some (RejectReason.cooldown e)))) ∧
    (candidate.lastMatchedUsers.lookup uid = none →
      ∀ e, quickReject current candidate uid config t ≠ some (RejectReason.cooldown e)) := by
  constructor
  · intro hbl
    rcases hlk : candidate.lastMatchedUsers.lookup uid with _ | lastTime
    · simp only [quickReject, hbl, Bool.false_eq_true, if_false, hlk]
      constructor
      · rintro ⟨lt, hlt, _⟩
        simp at hlt
      · rintro ⟨e, he⟩
        rcases quickRejectSegment_cases current candidate with h | ⟨a, b, h⟩ <;>
          rw [h] at he <;> simp at he
    · simp only [quickReject, hbl, Bool.false_eq_true, if_false, hlk]
      split
      · rename_i hcd
        constructor
        · intro _
          exact ⟨t - lastTime, rfl⟩
        · intro _
          exact ⟨lastTime, rfl, hcd⟩
      · rename_i hcd
        constructor
        · rintro ⟨lt, hlt, h2⟩
          injection hlt with h3
          subst h3
          exact absurd h2 hcd
        · rintro ⟨e, he⟩
          rcases quickRejectSegment_cases current candidate with h | ⟨a, b, h⟩ <;>
            rw [h] at he <;> simp at he
  · intro hlk e he
    simp only [quickReject, hlk] at he
    split at he
    · simp at he
    · rcases quickRejectSegment_cases current candidate with h | ⟨a, b, h⟩ <;>
        rw [h] at he <;> simp at he

/-- C4 witness: elapsed 599 with cooldown 600 is rejected for cooldown;
a candidate with no entry is never rejected for cooldown. -/
theorem quickReject_cooldown_boundary_witness :
    (∃ e, quickReject seekerA { candB with lastMatchedUsers := [("u", 100)] }
        "u" DefaultMatchConfig 699 = some (RejectReason.cooldown e)) ∧
    (∀ e, quickReject seekerA candB "u" DefaultMatchConfig 0 ≠ some (RejectReason.cooldown e)) :=
  ⟨((quickReject_cooldown_boundary seekerA { candB with lastMatchedUsers := [("u", 100)] }
      "u" DefaultMatchConfig 699).1 (by decide)).mp ⟨100, by decide, by decide⟩,
   (quickReject_cooldown_boundary seekerA candB "u" DefaultMatchConfig 0).2 (by decide)⟩

/-! ### Wait-time score: branch equations -/

theorem scoreWaitTime_eq_zero (s : Nat) (config : MatchConfig)
    (hs : s ≤ (config.minWaitTime % 65536).toNat) : scoreWaitTime s config = 0 := by
  simp only [scoreWaitTime]
  rw [if_pos hs]

theorem scoreWaitTime_eq_mid (s : Nat) (config : MatchConfig)
    (h1 : (config.minWaitTime % 65536).toNat < s) (h2 : s ≤ 60) :
    scoreWaitTime s config = ((s - (config.minWaitTime % 65536).toNat) / 10 : Nat) := by
  simp only [scoreWaitTime]
  rw [if_neg (by omega), if_pos h2]

theorem scoreWaitTime_eq_high (s : Nat) (config : MatchConfig)
    (h1 : (config.minWaitTime % 65536).toNat < s) (h2 : 60 < s) :
    scoreWaitTime s config = 4 + (((s - 60) / 10 * 2 : Nat) : Int) := by
  simp only [scoreWaitTime]
  rw [if_neg (by omega), if_neg (by omega)]

/-- C5 counterexample: under the configuration with minWait 10 the wait
score is 5 at 60 s but 4 at 61 s, both above minWait, so the score is not
nondecreasing above minWait for every configuration. -/
theorem scoreWaitTime_monotone_counterexample :
    scoreWaitTime 60 { recentMatchCooldown := 600, maxWaitTime := 300, minWaitTime := 10 } = 5 ∧
    scoreWaitTime 61 { recentMatchCooldown := 600, maxWaitTime := 300, minWaitTime := 10 } = 4 ∧
    ¬ scoreWaitTime 60 { recentMatchCooldown := 600, maxWaitTime := 300, minWaitTime := 10 } ≤
        scoreWaitTime 61 { recentMatchCooldown := 600, maxWaitTime := 300, minWaitTime := 10 } := by
  decide

/-- C5 (amended): for every configuration whose effective minimum wait
(the uint16 conversion of MinWaitTime) is at least 11 s, the wait score is
0 up to minWait and nondecreasing above it, rising by 1 per 10 s up to the
60 s mark and by 2 per 10 s past it. -/
theorem scoreWaitTime_monotone (config : MatchConfig)
    (hm : 11 ≤ (config.minWaitTime % 65536).toNat) :
    (∀ s : Nat, s ≤ (config.minWaitTime % 65536).toNat → scoreWaitTime s config = 0) ∧
    (∀ s₁ s₂ : Nat, (config.minWaitTime % 65536).toNat < s₁ → s₁ ≤ s₂ →
      scoreWaitTime s₁ config ≤ scoreWaitTime s₂ config) ∧
    (∀ s : Nat, (config.minWaitTime % 65536).toNat < s → s + 10 ≤ 60 →
      scoreWaitTime (s + 10) config = scoreWaitTime s config + 1) ∧
    (∀ s : Nat, (config.minWaitTime % 65536).toNat < s → 61 ≤ s →
      scoreWaitTime (s + 10) config = scoreWaitTime s config + 2) := by
  refine ⟨fun s hs => scoreWaitTime_eq_zero s config hs, ?_, ?_, ?_⟩
  · intro s₁ s₂ h1 h12
    by_cases hb2 : s₂ ≤ 60
    · have hb1 : s₁ ≤ 60 := by omega
      rw [scoreWaitTime_eq_mid s₁ config h1 hb1, scoreWaitTime_eq_mid s₂ config (by omega) hb2]
      omega
    · by_cases hb1 : s₁ ≤ 60
      · rw [scoreWaitTime_eq_mid s₁ config h1 hb1,
          scoreWaitTime_eq_high s₂ config (by omega) (by omega)]
        omega
      · rw [scoreWaitTime_eq_high s₁ config h1 (by omega),
          scoreWaitTime_eq_high s₂ config (by omega) (by omega)]
        omega
  · intro s h1 h2
    rw [scoreWaitTime_eq_mid (s + 10) config (by omega) h2,
      scoreWaitTime_eq_mid s config h1 (by omega)]
    omega
  · intro s h1 h2
    rw [scoreWaitTime_eq_high (s + 10) config (by omega) (by omega),
      scoreWaitTime_eq_high s config h1 (by omega)]
    omega

/-- C5 witness: the amended statement applied to the default configuration
(minWait 20) at concrete wait times. -/
theorem scoreWaitTime_monotone_witness :
    scoreWaitTime 15 DefaultMatchConfig = 0 ∧
    scoreWaitTime 30 DefaultMatchConfig ≤ scoreWaitTime 80 DefaultMatchConfig ∧
    scoreWaitTime (30 + 10) DefaultMatchConfig = scoreWaitTime 30 DefaultMatchConfig + 1 ∧
    scoreWaitTime (70 + 10) DefaultMatchConfig = scoreWaitTime 70 DefaultMatchConfig + 2 := by
  have h := scoreWaitTime_monotone DefaultMatchConfig (by decide)
  exact ⟨h.1 15 (by decide), h.2.1 30 80 (by decide) (by decide),
    h.2.2.1 30 (by decide) (by decide), h.2.2.2 70 (by decide) (by decide)⟩

/-! ### Lemmas about the running-maximum fold of the score-only matcher -/

theorem foldlMax_ge_init (f : Entity → Int) (l : List Entity) :
    ∀ init : Int, init ≤ l.foldl (fun m c => if m < f c then f c else m) init := by
  induction l with
  | nil => intro init; exact le_refl init
  | cons a l ih =>
    intro init
    rw [List.foldl_cons]
    refine le_trans ?_ (ih (if init < f a then f a else init))
    split <;> omega

theorem foldlMax_ge_mem (f : Entity → Int) (l : List Entity) :
    ∀ (init : Int) (x : Entity), x ∈ l →
      f x ≤ l.foldl (fun m c => if m < f c then f c else m) init := by
  induction l with
  | nil => intro init x hx; cases hx
  | cons a l ih =>
    intro init x hx
    rw [List.foldl_cons]
    rcases List.mem_cons.mp hx with h | h
    · subst h
      refine le_trans ?_ (foldlMax_ge_init f l _)
      split <;> omega
    · exact ih _ x h

theorem foldlMax_le_bound (f : Entity → Int) (l : List Entity) :
    ∀ (init B : Int), init ≤ B → (∀ x ∈ l, f x ≤ B) →
      l.foldl (fun m c => if m < f c then f c else m) init ≤ B := by
  induction l with
  | nil => intro init B h _; exact h
  | cons a l ih =>
    intro init B h hall
    rw [List.foldl_cons]
    refine ih _ B ?_ (fun x hx => hall x (List.mem_cons_of_mem a hx))
    have := hall a (List.mem_cons_self a l)
    split <;> omega

/-- Selection function standing for a random draw that always picks
index 0, as any in-range draw must on a singleton tie list. -/
def pick0 : Nat → Nat := fun _ => 0

/-- C3 counterexample: for the Scenario A pair (seeker occupancy 3, wait
80 s; candidate occupancy 4, wait 80 s, audience difference 0, history 12,
activity high), the candidate's tier is 2 — not 1 as claimed — and with
the uint8 underflow the segment score is 0 — not 10 — so the total is 20,
not 30. -/
theorem scenarioA_counterexample :
    getMicSegment 4 = 2 ∧ ¬ getMicSegment 4 = 1 ∧
    (scoreMatchDetailed seekerA candB "u" DefaultMatchConfig 0 1).segmentScore = 0 ∧
    ¬ (scoreMatchDetailed seekerA candB "u" DefaultMatchConfig 0 1).segmentScore = 10 ∧
    (scoreMatchDetailed seekerA candB "u" DefaultMatchConfig 0 1).score = 20 ∧
    ¬ (scoreMatchDetailed seekerA candB "u" DefaultMatchConfig 0 1).score = 30 := by
  decide

/-- C3 (amended): for the Scenario A pair — seeker occupancy 3 (tier 1),
wait 80 s, candidate occupancy 4, wait 80 s, audience difference 0,
history 12, activity high, empty blacklist, no cooldown entry, default
configuration — the candidate's tier is 2, the pair is eligible with
component scores wait 8, segment 0, audience 5, history 4, activity 3 and
total 20, and the candidate is selected whenever its total is the unique
maximum of the pool. -/
theorem scenarioA_corrected (pool : List Entity) (pick : Nat → Nat)
    (hmem : candB ∈ pool)
    (hmax : ∀ x ∈ pool, x ≠ candB → scoreMatch seekerA x "u" DefaultMatchConfig 0 1 < 20)
    (hpick : ∀ n, 0 < n → pick n < n) :
    getMicSegment candB.micCount = 2 ∧
    (scoreMatchDetailed seekerA candB "u" DefaultMatchConfig 0 1).rejected = false ∧
    (scoreMatchDetailed seekerA candB "u" DefaultMatchConfig 0 1).waitScore = 8 ∧
    (scoreMatchDetailed seekerA candB "u" DefaultMatchConfig 0 1).segmentScore = 0 ∧
    (scoreMatchDetailed seekerA candB "u" DefaultMatchConfig 0 1).audienceScore = 5 ∧
    (scoreMatchDetailed seekerA candB "u" DefaultMatchConfig 0 1).historyScore = 4 ∧
    (scoreMatchDetailed seekerA candB "u" DefaultMatchConfig 0 1).activityScore = 3 ∧
    (scoreMatchDetailed seekerA candB "u" DefaultMatchConfig 0 1).score = 20 ∧
    matchEntity pick seekerA pool "u" DefaultMatchConfig 0 = some candB := by
  refine ⟨by decide, by decide, by decide, by decide, by decide, by decide, by decide,
    by decide, ?_⟩
  have hsB : scoreMatch seekerA candB "u" DefaultMatchConfig 0 1 = 20 := by decide
  have hne : ¬ pool.length = 0 := by
    have hnil : pool ≠ [] := List.ne_nil_of_mem hmem
    intro h0
    exact hnil (List.eq_nil_of_length_eq_zero h0)
  have hsegA : getMicSegment seekerA.micCount = 1 := by decide
  have hM : matchEntityMax seekerA pool "u" DefaultMatchConfig 0 1 = 20 := by
    apply le_antisymm
    · simp only [matchEntityMax]
      apply foldlMax_le_bound (fun c => scoreMatch seekerA c "u" DefaultMatchConfig 0 1)
        pool (-1000) 20 (by norm_num)
      intro x hx
      by_cases hxB : x = candB
      · subst hxB
        rw [hsB]
      · exact le_of_lt (hmax x hx hxB)
    · have hge := foldlMax_ge_mem (fun c => scoreMatch seekerA c "u" DefaultMatchConfig 0 1)
        pool (-1000) candB hmem
      simp only [] at hge
      rw [hsB] at hge
      simpa only [matchEntityMax] using hge
  have hresall : ∀ r ∈ matchEntityResults seekerA pool "u" DefaultMatchConfig 0 1 20,
      r = { room := candB, score := 20 } := by
    intro r hr
    simp only [matchEntityResults] at hr
    rcases List.mem_filterMap.mp hr with ⟨c, hc, hfc⟩
    by_cases hcB : c = candB
    · subst hcB
      rw [if_pos hsB] at hfc
      injection hfc with h
      rw [← h, hsB]
    · rw [if_neg (ne_of_lt (hmax c hc hcB))] at hfc
      exact Option.noConfusion hfc
  have hmemres : ({ room := candB, score := 20 } : MatchResult) ∈
      matchEntityResults seekerA pool "u" DefaultMatchConfig 0 1 20 := by
    simp only [matchEntityResults]
    exact List.mem_filterMap.mpr ⟨candB, hmem, by rw [if_pos hsB, hsB]⟩
  have hlenres : ¬ (matchEntityResults seekerA pool "u" DefaultMatchConfig 0 1 20).length = 0 := by
    intro h0
    rw [List.eq_nil_of_length_eq_zero h0] at hmemres
    cases hmemres
  simp only [matchEntity, hsegA, hM]
  rw [if_neg hne, if_neg (by norm_num : ¬ (20 : Int) < 0), if_neg hlenres]
  have hlt : pick (matchEntityResults seekerA pool "u" DefaultMatchConfig 0 1 20).length <
      (matchEntityResults seekerA pool "u" DefaultMatchConfig 0 1 20).length :=
    hpick _ (by omega)
  rw [List.get?_eq_get hlt, hresall _ (List.get_mem _ _ _)]
  rfl

/-- C3 witness: the amended scenario on the singleton pool holding the
Scenario A candidate, with an in-range selection function. -/
theorem scenarioA_corrected_witness :
    getMicSegment candB.micCount = 2 ∧
    (scoreMatchDetailed seekerA candB "u" DefaultMatchConfig 0 1).rejected = false ∧
    (scoreMatchDetailed seekerA candB "u" DefaultMatchConfig 0 1).waitScore = 8 ∧
    (scoreMatchDetailed seekerA candB "u" DefaultMatchConfig 0 1).segmentScore = 0 ∧
    (scoreMatchDetailed seekerA candB "u" DefaultMatchConfig 0 1).audienceScore = 5 ∧
    (scoreMatchDetailed seekerA candB "u" DefaultMatchConfig 0 1).historyScore = 4 ∧
    (scoreMatchDetailed seekerA candB "u" DefaultMatchConfig 0 1).activityScore = 3 ∧
    (scoreMatchDetailed seekerA candB "u" DefaultMatchConfig 0 1).score = 20 ∧
    matchEntity pick0 seekerA [candB] "u" DefaultMatchConfig 0 = some candB :=
  scenarioA_corrected [candB] pick0
    (by simp)
    (by
      intro x hx hne
      rw [List.mem_singleton] at hx
      exact absurd hx hne)
    (fun n hn => hn)

/-! ### Equivalence of the score-only and detailed matchers -/

theorem maxFold_invariant (cur : Entity) (uid : String) (config : MatchConfig) (t : Int) (seg : Nat) :
    ∀ (pool : List Entity) (m₁ m₂ : Int),
      (m₁ = -1000 ∧ m₂ < 0) ∨ (m₁ = m₂ ∧ 0 ≤ m₁) →
      (pool.foldl (fun m c =>
          if (scoreMatchDetailed cur c uid config t seg).rejected = false ∧
              m < (scoreMatchDetailed cur c uid config t seg).score then
            (scoreMatchDetailed cur c uid config t seg).score
          else m) m₁ = -1000 ∧
        pool.foldl (fun m c =>
          if m < (scoreMatchDetailed cur c uid config t seg).score then
            (scoreMatchDetailed cur c uid config t seg).score
          else m) m₂ < 0) ∨
      (pool.foldl (fun m c =>
          if (scoreMatchDetailed cur c uid config t seg).rejected = false ∧
              m < (scoreMatchDetailed cur c uid config t seg).score then
            (scoreMatchDetailed cur c uid config t seg).score
          else m) m₁ =
        pool.foldl (fun m c =>
          if m < (scoreMatchDetailed cur c uid config t seg).score then
            (scoreMatchDetailed cur c uid config t seg).score
          else m) m₂ ∧
        0 ≤ pool.foldl (fun m c =>
          if (scoreMatchDetailed cur c uid config t seg).rejected = false ∧
              m < (scoreMatchDetailed cur c uid config t seg).score then
            (scoreMatchDetailed cur c uid config t seg).score
          else m) m₁) := by
  intro pool
  induction pool with
  | nil =>
    intro m₁ m₂ h
    simpa only [List.foldl_nil] using h
  | cons a l ih =>
    intro m₁ m₂ h
    rw [List.foldl_cons, List.foldl_cons]
    apply ih
    rcases h with ⟨h1, h2⟩ | ⟨h1, h2⟩
    · subst h1
      cases hrej : (scoreMatchDetailed cur a uid config t seg).rejected
      · have hnn := scoreMatchDetailed_eligible_nonneg cur a uid config t seg hrej
        rw [if_pos ⟨rfl, by omega⟩, if_pos (by omega)]
        exact Or.inr ⟨rfl, hnn⟩
      · have hsc := scoreMatchDetailed_rejected_score cur a uid config t seg hrej
        rw [if_neg (by simp), hsc]
        refine Or.inl ⟨rfl, ?_⟩
        split <;> omega
    · subst h1
      cases hrej : (scoreMatchDetailed cur a uid config t seg).rejected
      · have hnn := scoreMatchDetailed_eligible_nonneg cur a uid config t seg hrej
        by_cases hlt : m₁ < (scoreMatchDetailed cur a uid config t seg).score
        · rw [if_pos ⟨rfl, hlt⟩, if_pos hlt]
          exact Or.inr ⟨rfl, by omega⟩
        · rw [if_neg (fun hh => hlt hh.2), if_neg hlt]
          exact Or.inr ⟨rfl, h2⟩
      · have hsc := scoreMatchDetailed_rejected_score cur a uid config t seg hrej
        rw [if_neg (by simp), hsc, if_neg (by omega)]
        exact Or.inr ⟨rfl, h2⟩

theorem maxes_rel (cur : Entity) (pool : List Entity) (uid : String) (config : MatchConfig)
    (t : Int) (seg : Nat) :
    (matchDetailedMax (matchEntityDetails cur pool uid config t seg) = -1000 ∧
      matchEntityMax cur pool uid config t seg < 0) ∨
    (matchDetailedMax (matchEntityDetails cur pool uid config t seg) =
        matchEntityMax cur pool uid config t seg ∧
      0 ≤ matchDetailedMax (matchEntityDetails cur pool uid config t seg)) := by
  have h := maxFold_invariant cur uid config t seg pool (-1000) (-1000) (Or.inl ⟨rfl, by norm_num⟩)
  have e1 : matchDetailedMax (matchEntityDetails cur pool uid config t seg) =
      pool.foldl (fun m c =>
        if (scoreMatchDetailed cur c uid config t seg).rejected = false ∧
            m < (scoreMatchDetailed cur c uid config t seg).score then
          (scoreMatchDetailed cur c uid config t seg).score
        else m) (-1000) := by
    simp only [matchDetailedMax, matchEntityDetails, List.foldl_map]
  have e2 : matchEntityMax cur pool uid config t seg =
      pool.foldl (fun m c =>
        if m < (scoreMatchDetailed cur c uid config t seg).score then
          (scoreMatchDetailed cur c uid config t seg).score
        else m) (-1000) := by
    simp only [matchEntityMax, scoreMatch]
  rw [e1, e2]
  exact h

theorem filterMap_congr_own {α β : Type} (f g : α → Option β) (l : List α)
    (h : ∀ x ∈ l, f x = g x) : l.filterMap f = l.filterMap g := by
  induction l with
  | nil => rfl
  | cons a l ih =>
    have ha := h a (List.mem_cons_self a l)
    have ih' := ih (fun x hx => h x (List.mem_cons_of_mem a hx))
    cases hfa : f a with
    | none =>
      rw [List.filterMap_cons_none hfa, List.filterMap_cons_none (ha ▸ hfa), ih']
    | some b =>
      rw [List.filterMap_cons_some hfa, List.filterMap_cons_some (ha ▸ hfa), ih']

theorem results_map_eq_candidates (cur : Entity) (pool : List Entity) (uid : String)
    (config : MatchConfig) (t : Int) (seg : Nat) (M : Int) (hM : 0 ≤ M) :
    (matchEntityResults cur pool uid config t seg M).map MatchResult.room =
      matchDetailedCandidates (matchEntityDetails cur pool uid config t seg) M := by
  simp only [matchEntityResults, matchDetailedCandidates, matchEntityDetails,
    List.map_filterMap, List.filterMap_map]
  apply filterMap_congr_own
  intro c _
  simp only [Function.comp]
  cases hrej : (scoreMatchDetailed cur c uid config t seg).rejected
  · by_cases hsc : (scoreMatchDetailed cur c uid config t seg).score = M
    · rw [if_pos (show scoreMatch cur c uid config t seg = M from hsc)]
      rw [if_pos (show _ ∧ (scoreMatchDetailed cur c uid config t seg).score = M from
        ⟨by simp, hsc⟩)]
      rw [scoreMatchDetailed_entity]
      rfl
    · rw [if_neg (show ¬ scoreMatch cur c uid config t seg = M from hsc)]
      rw [if_neg (fun hh => hsc hh.2)]
      rfl
  · have hsc := scoreMatchDetailed_rejected_score cur c uid config t seg hrej
    rw [if_neg (show ¬ scoreMatch cur c uid config t seg = M by
      simp only [scoreMatch]; omega)]
    rw [if_neg (fun hh => by have h2 := hh.2; omega)]
    rfl

theorem matchEntityDetailed_fst (pick : Nat → Nat) (cur : Entity) (pool : List Entity)
    (uid : String) (config : MatchConfig) (t : Int) :
    (matchEntityDetailed pick cur pool uid config t).1 =
      (if pool.length = 0 then none
       else if matchDetailedMax
           (matchEntityDetails cur pool uid config t (getMicSegment cur.micCount)) < 0 then none
       else if (matchDetailedCandidates
           (matchEntityDetails cur pool uid config t (getMicSegment cur.micCount))
           (matchDetailedMax
             (matchEntityDetails cur pool uid config t (getMicSegment cur.micCount)))).length = 0
         then none
       else (matchDetailedCandidates
           (matchEntityDetails cur pool uid config t (getMicSegment cur.micCount))
           (matchDetailedMax
             (matchEntityDetails cur pool uid config t (getMicSegment cur.micCount)))).get?
         (pick (matchDetailedCandidates
           (matchEntityDetails cur pool uid config t (getMicSegment cur.micCount))
           (matchDetailedMax
             (matchEntityDetails cur pool uid config t (getMicSegment cur.micCount)))).length)) := by
  simp only [matchEntityDetailed]
  by_cases h0 : pool.length = 0
  · rw [if_pos h0, if_pos h0]
  · rw [if_neg h0, if_neg h0]
    by_cases h1 : matchDetailedMax
        (matchEntityDetails cur pool uid config t (getMicSegment cur.micCount)) < 0
    · rw [if_pos h1, if_pos h1]
    · rw [if_neg h1, if_neg h1]
      by_cases h2 : (matchDetailedCandidates
          (matchEntityDetails cur pool uid config t (getMicSegment cur.micCount))
          (matchDetailedMax
            (matchEntityDetails cur pool uid config t (getMicSegment cur.micCount)))).length = 0
      · rw [if_pos h2, if_pos h2]
      · rw [if_neg h2, if_neg h2]

/-- C8: for a fixed evaluation timestamp, the score-only matcher returns
exactly the first component of the detailed matcher under every selection
draw; and whenever an eligible candidate exists (nonnegative running
maximum), the two tie lists — rooms collected by the score-only pass and
candidates collected by the detailed pass — are the same list, so the
uniform draw is over the same set of top-scoring non-rejected candidates. -/
theorem matchEntity_equiv_matchEntityDetailed (current : Entity) (pool : List Entity)
    (uid : String) (config : MatchConfig) (t : Int) :
    (∀ pick : Nat → Nat,
      matchEntity pick current pool uid config t =
        (matchEntityDetailed pick current pool uid config t).1) ∧
    (0 ≤ matchDetailedMax
        (matchEntityDetails current pool uid config t (getMicSegment current.micCount)) →
      (matchEntityResults current pool uid config t (getMicSegment current.micCount)
          (matchEntityMax current pool uid config t (getMicSegment current.micCount))).map
        MatchResult.room =
        matchDetailedCandidates
          (matchEntityDetails current pool uid config t (getMicSegment current.micCount))
          (matchDetailedMax
            (matchEntityDetails current pool uid config t (getMicSegment current.micCount)))) := by
  constructor
  · intro pick
    rw [matchEntityDetailed_fst]
    simp only [matchEntity]
    by_cases h0 : pool.length = 0
    · rw [if_pos h0, if_pos h0]
    · rw [if_neg h0, if_neg h0]
      rcases maxes_rel current pool uid config t (getMicSegment current.micCount) with
        ⟨h1, h2⟩ | ⟨h1, h2⟩
      · rw [if_pos h2,
          if_pos (show matchDetailedMax
            (matchEntityDetails current pool uid config t (getMicSegment current.micCount)) < 0
            by omega)]
      · rw [if_neg (show ¬ matchEntityMax current pool uid config t
            (getMicSegment current.micCount) < 0 by omega),
          if_neg (show ¬ matchDetailedMax
            (matchEntityDetails current pool uid config t (getMicSegment current.micCount)) < 0
            by omega)]
        have hcand := results_map_eq_candidates current pool uid config t
          (getMicSegment current.micCount)
          (matchEntityMax current pool uid config t (getMicSegment current.micCount)) (by omega)
        rw [h1, ← hcand, List.length_map, List.get?_map]
  · intro hM
    rcases maxes_rel current pool uid config t (getMicSegment current.micCount) with
      ⟨h1, h2⟩ | ⟨h1, h2⟩
    · omega
    · rw [h1]
      exact results_map_eq_candidates current pool uid config t
        (getMicSegment current.micCount)
        (matchEntityMax current pool uid config t (getMicSegment current.micCount)) (by omega)

/-- C8 witness: the equivalence evaluated on a concrete seeker and a
singleton pool holding an eligible candidate. -/
theorem matchEntity_equiv_matchEntityDetailed_witness :
    matchEntity pick0 seekerA [candB] "u" DefaultMatchConfig 0 =
      (matchEntityDetailed pick0 seekerA [candB] "u" DefaultMatchConfig 0).1 ∧
    (matchEntityResults seekerA [candB] "u" DefaultMatchConfig 0
        (getMicSegment seekerA.micCount)
        (matchEntityMax seekerA [candB] "u" DefaultMatchConfig 0
          (getMicSegment seekerA.micCount))).map MatchResult.room =
      matchDetailedCandidates
        (matchEntityDetails seekerA [candB] "u" DefaultMatchConfig 0
          (getMicSegment seekerA.micCount))
        (matchDetailedMax
          (matchEntityDetails seekerA [candB] "u" DefaultMatchConfig 0
            (getMicSegment seekerA.micCount))) :=
  ⟨(matchEntity_equiv_matchEntityDetailed seekerA [candB] "u" DefaultMatchConfig 0).1 pick0,
   (matchEntity_equiv_matchEntityDetailed seekerA [candB] "u" DefaultMatchConfig 0).2 (by decide)⟩

/-! ### Batch matcher -/

/-- C9: a batch call whose seeker and identifier lists differ in length
fails with the invalid-argument error carrying the Go panic message and
returns no mapping at all; the check precedes any matching. -/
theorem batchMatchEntities_length_mismatch (pick : Nat → Nat) (rooms : List (Option Entity))
    (pool : List Entity) (userIDs : List String) (config : MatchConfig) (t : Int)
    (h : rooms.length ≠ userIDs.length) :
    batchMatchEntities pick rooms pool userIDs config t =
      Except.error "rooms and userIDs length mismatch" := by
  simp only [batchMatchEntities]
  rw [if_pos h]

/-- C9 witness: Scenario E — three seekers, two identifiers. -/
theorem batchMatchEntities_length_mismatch_witness :
    batchMatchEntities pick0 [none, none, none] [] ["a", "b"] DefaultMatchConfig 0 =
      Except.error "rooms and userIDs length mismatch" :=
  batchMatchEntities_length_mismatch pick0 [none, none, none] [] ["a", "b"]
    DefaultMatchConfig 0 (by decide)

theorem batchGo_frame (pick : Nat → Nat) (pool : List Entity) (config : MatchConfig) (t : Int) :
    ∀ (rooms : List (Option Entity)) (userIDs : List String) (acc : String → Option Entity)
      (key : String),
      (∀ p ∈ rooms.zip userIDs, ∀ room : Entity, p.1 = some room → room.id = key →
        matchEntity pick room pool p.2 config t = none) →
      batchGo pick pool config t rooms userIDs acc key = acc key := by
  intro rooms
  induction rooms with
  | nil => intro userIDs acc key h; rfl
  | cons r rs ih =>
    intro userIDs acc key h
    cases userIDs with
    | nil => cases r <;> rfl
    | cons u us =>
      have h' : ∀ p ∈ rs.zip us, ∀ room : Entity, p.1 = some room → room.id = key →
          matchEntity pick room pool p.2 config t = none :=
        fun p hp => h p (by rw [List.zip_cons_cons]; exact List.mem_cons_of_mem _ hp)
      cases r with
      | none =>
        simp only [batchGo]
        exact ih us acc key h'
      | some r' =>
        cases hm : matchEntity pick r' pool u config t with
        | none =>
          simp only [batchGo, hm]
          exact ih us acc key h'
        | some m =>
          simp only [batchGo, hm]
          rw [ih us _ key h']
          have hne : ¬ key = r'.id := by
            intro hkey
            have hcontra := h (r', u)
              (by rw [List.zip_cons_cons]; exact List.mem_cons_self _ _) r' rfl hkey.symm
            rw [hcontra] at hm
            exact Option.noConfusion hm
          simp [hne]

theorem batchGo_write (pick : Nat → Nat) (pool : List Entity) (config : MatchConfig) (t : Int) :
    ∀ (pre : List (Option Entity)) (upre : List String) (post : List (Option Entity))
      (upost : List String) (acc : String → Option Entity) (room : Entity) (uid : String)
      (cand : Entity),
      pre.length = upre.length →
      matchEntity pick room pool uid config t = some cand →
      (∀ p ∈ post.zip upost, ∀ room' : Entity, p.1 = some room' → room'.id = room.id →
        matchEntity pick room' pool p.2 config t = none) →
      batchGo pick pool config t (pre ++ some room :: post) (upre ++ uid :: upost) acc room.id
        = some cand := by
  intro pre
  induction pre with
  | nil =>
    intro upre post upost acc room uid cand hlen hmatch hpost
    cases upre with
    | nil =>
      simp only [List.nil_append]
      simp only [batchGo, hmatch]
      rw [batchGo_frame pick pool config t post upost _ room.id hpost]
      simp
    | cons u us => simp at hlen
  | cons r rs ih =>
    intro upre post upost acc room uid cand hlen hmatch hpost
    cases upre with
    | nil => simp at hlen
    | cons u us =>
      have hlen' : rs.length = us.length := by simpa using hlen
      simp only [List.cons_append]
      cases r with
      | none =>
        simp only [batchGo]
        exact ih us post upost acc room uid cand hlen' hmatch hpost
      | some r' =>
        cases hm : matchEntity pick r' pool u config t with
        | none =>
          simp only [batchGo, hm]
          exact ih us post upost acc room uid cand hlen' hmatch hpost
        | some m =>
          simp only [batchGo, hm]
          exact ih us post upost _ room uid cand hlen' hmatch hpost

/-- Concrete seeker with identifier "s" used by the batch theorems. -/
def roomS : Entity :=
  { id := "s", lastMatchedUsers := [], blacklist := [], micCount := 3,
    audienceCount := 50, waitSeconds := 80, matchHistory := 0, activityLevel := ActivityLow }

/-- Concrete pool candidate that blocks user "u2", so only the seeker
using identifier "u1" can match it. -/
def candC1 : Entity :=
  { id := "c1", lastMatchedUsers := [], blacklist := ["u2"], micCount := 3,
    audienceCount := 50, waitSeconds := 80, matchHistory := 0, activityLevel := ActivityLow }

/-- Concrete pool candidate that blocks user "u1", so only the seeker
using identifier "u2" can match it. -/
def candC2 : Entity :=
  { id := "c2", lastMatchedUsers := [], blacklist := ["u1"], micCount := 3,
    audienceCount := 50, waitSeconds := 80, matchHistory := 0, activityLevel := ActivityLow }

/-- C10 counterexample: two present seekers share the identifier "s"; at
position 0 the matcher (with identifiers "u1" and "u2") selects candC1,
yet the final mapping holds candC2 for "s", because the later position's
write overwrites the earlier one in the Go result map. -/
theorem batchMatch_overwrite_counterexample :
    matchEntity pick0 roomS [candC1, candC2] "u1" DefaultMatchConfig 0 = some candC1 ∧
    ∃ f, batchMatchEntities pick0 [some roomS, some roomS] [candC1, candC2] ["u1", "u2"]
        DefaultMatchConfig 0 = Except.ok f ∧
      f "s" = some candC2 ∧ ¬ f "s" = some candC1 :=
  ⟨by decide,
   batchGo pick0 [candC1, candC2] DefaultMatchConfig 0 [some roomS, some roomS] ["u1", "u2"]
     (fun _ => none),
   rfl, by decide, by decide⟩

/-- C10 (amended): for equal-length lists, a present seeker at some
position whose match succeeds contributes its entry to the mapping
provided no later position with the same seeker identifier also matches
(a later same-identifier match overwrites the entry, see the
counterexample); and an identifier for which no position produces a match
is absent from the mapping. -/
theorem batchMatchEntities_mapping (pick : Nat → Nat) (pool : List Entity)
    (config : MatchConfig) (t : Int) :
    (∀ (pre post : List (Option Entity)) (upre upost : List String) (room : Entity)
        (uid : String) (cand : Entity),
      pre.length = upre.length → post.length = upost.length →
      matchEntity pick room pool uid config t = some cand →
      (∀ p ∈ post.zip upost, ∀ room' : Entity, p.1 = some room' → room'.id = room.id →
        matchEntity pick room' pool p.2 config t = none) →
      ∃ f, batchMatchEntities pick (pre ++ some room :: post) pool (upre ++ uid :: upost)
          config t = Except.ok f ∧ f room.id = some cand) ∧
    (∀ (rooms : List (Option Entity)) (userIDs : List String) (key : String),
      rooms.length = userIDs.length →
      (∀ p ∈ rooms.zip userIDs, ∀ room : Entity, p.1 = some room → room.id = key →
        matchEntity pick room pool p.2 config t = none) →
      ∃ f, batchMatchEntities pick rooms pool userIDs config t = Except.ok f ∧ f key = none) := by
  constructor
  · intro pre post upre upost room uid cand hlen1 hlen2 hmatch hpost
    have hlen : (pre ++ some room :: post).length = (upre ++ uid :: upost).length := by
      simp [hlen1, hlen2]
    refine ⟨batchGo pick pool config t (pre ++ some room :: post) (upre ++ uid :: upost)
      (fun _ => none), ?_, ?_⟩
    · simp only [batchMatchEntities]
      rw [if_neg (not_not_intro hlen)]
    · exact batchGo_write pick pool config t pre upre post upost (fun _ => none)
        room uid cand hlen1 hmatch hpost
  · intro rooms userIDs key hlen hnone
    refine ⟨batchGo pick pool config t rooms userIDs (fun _ => none), ?_, ?_⟩
    · simp only [batchMatchEntities]
      rw [if_neg (not_not_intro hlen)]
    · rw [batchGo_frame pick pool config t rooms userIDs _ key hnone]

/-- C10 witness: a singleton batch writes its seeker's entry, and a batch
whose only seeker slot is empty leaves the identifier unmapped. -/
theorem batchMatchEntities_mapping_witness :
    (∃ f, batchMatchEntities pick0 [some roomS] [candC1, candC2] ["u1"] DefaultMatchConfig 0
        = Except.ok f ∧ f "s" = some candC1) ∧
    (∃ f, batchMatchEntities pick0 [none] [candC1, candC2] ["u1"] DefaultMatchConfig 0
        = Except.ok f ∧ f "s" = none) :=
  ⟨(batchMatchEntities_mapping pick0 [candC1, candC2] DefaultMatchConfig 0).1 [] [] [] []
      roomS "u1" candC1 rfl rfl (by decide)
      (by intro p hp; cases hp),
   (batchMatchEntities_mapping pick0 [candC1, candC2] DefaultMatchConfig 0).2 [none] ["u1"] "s"
      rfl
      (by
        intro p hp room hroom hid
        rw [List.zip_cons_cons] at hp
        rcases List.mem_cons.mp hp with h | h
        · subst h
          exact Option.noConfusion hroom
        · cases h)⟩
